import Mathlib

/-!
Verification of the tennis video analysis system (`tennis_coach_app`).

The repository ships a React frontend (under `frontend/src`) together with
design documentation for a FastAPI backend.  The frontend code is embedded
directly from the TypeScript source.  The analysis pipeline itself (frame
source, detector adapter, trajectory tracker, metrics aggregator, analysis
run controller) is not present in the repository source tree; those
components are modelled from the specification, and each such definition is
marked with a doc comment starting `Modelled from the spec:`.

Numeric values (coordinates, rates, speeds, timestamps) are represented
with rationals; Euclidean distances are compared squared so that all
definitions stay executable over `ℚ`.
-/

namespace TennisCoach

/-! ## Frontend data model (from `frontend/src/types/video.ts`) -/

/-- Video metadata as declared in `types/video.ts` (`VideoMetadata`).
Optional fields are `Option`-valued as in the TypeScript declaration. -/
structure VideoMetadata where
  filename : String
  file_size : Nat
  duration : Option ℚ := none
  width : Option Nat := none
  height : Option Nat := none
  fps : Option ℚ := none
  frame_count : Option Nat := none
deriving DecidableEq, Repr

/-- Response shape of the video list endpoint (`VideoListResponse`). -/
structure VideoListResponse where
  videos : List VideoMetadata
  total : Nat
deriving DecidableEq, Repr

/-- Upload response shape (`VideoUploadResponse`). -/
structure VideoUploadResponse where
  message : String
  video : VideoMetadata
deriving DecidableEq, Repr

/-! ## `videoApi.getVideos` (from `frontend/src/services/api.ts`)

The service fetches `VideoMetadata[]` from the backend and wraps it:
`return ( videos := response.data, total := response.data.length )`.
The function below is that wrapping step, parametrised by the array the
backend returned. -/

/-- Embeds `videoApi.getVideos` from `services/api.ts`: the backend response
data is wrapped into a `VideoListResponse` whose `total` is the array
length. -/
def getVideos (data : List VideoMetadata) : VideoListResponse :=
  { videos := data, total := data.length }

/-! ## `VideoUpload.handleFileSelect` (from `components/VideoUpload.tsx`) -/

/-- A browser file as seen by `handleFileSelect`: its MIME type string and
its size in bytes. -/
structure UploadFile where
  mimeType : String
  size : Nat
deriving DecidableEq, Repr

/-- The allowed video MIME types from `VideoUpload.tsx`. -/
def allowedTypes : List String :=
  ["video/mp4", "video/avi", "video/mov", "video/wmv", "video/flv"]

/-- The 100 MB upload size limit from `VideoUpload.tsx`. -/
def maxSize : Nat := 100 * 1024 * 1024

/-- Observable outcome of one `handleFileSelect` call: the error message it
set (if any), whether `videoApi.uploadVideo` was called, and whether
`onUploadSuccess` was invoked. -/
structure UploadOutcome where
  errorMsg : Option String
  uploadCalled : Bool
  successCalled : Bool
deriving DecidableEq, Repr

/-- Embeds `handleFileSelect` from `VideoUpload.tsx`.  The eventual
resolution of the `videoApi.uploadVideo` promise is passed as `r` and is
only consulted if validation passes and the upload is issued. -/
def handleFileSelect (file : UploadFile) (r : Except String VideoUploadResponse) :
    UploadOutcome :=
  if file.mimeType ∉ allowedTypes then
    { errorMsg := some "Please select a valid video file (MP4, AVI, MOV, WMV, FLV)",
      uploadCalled := false, successCalled := false }
  else if maxSize < file.size then
    { errorMsg := some "File size must be less than 100MB",
      uploadCalled := false, successCalled := false }
  else
    match r with
    | Except.ok _ =>
        { errorMsg := none, uploadCalled := true, successCalled := true }
    | Except.error e =>
        { errorMsg := some e, uploadCalled := true, successCalled := false }

/-! ## Pipeline data model

The analysis pipeline is not in the repository source tree; the data model
below is modelled from spec sections 3 to 4.5. -/

/-- Modelled from the spec: a single detection (position, confidence) for
one frame, section 4.2. -/
structure Detection where
  x : ℚ
  y : ℚ
  confidence : ℚ
deriving DecidableEq, Repr

/-- Modelled from the spec: a FrameObservation row, one per (run, frame) —
timestamp, the raw ball detections and the detected flag, section 3. -/
structure FrameObservation where
  run_id : Nat
  frame_number : Nat
  timestamp : ℚ
  detections : List Detection
  detected : Bool
deriving DecidableEq, Repr

/-- Modelled from the spec: the closed stroke-type enum with `unknown`
allowed, section 3. -/
inductive StrokeType where
  | forehand | backhand | serve | volley | unknown
deriving DecidableEq, Repr

/-- Modelled from the spec: a StrokeEvent — frame, timestamp, stroke type,
confidence, ball and player positions, section 3. -/
structure StrokeEvent where
  frame_number : Nat
  timestamp : ℚ
  stroke_type : StrokeType
  confidence : ℚ
  ball_x : ℚ
  ball_y : ℚ
  player_x : ℚ
  player_y : ℚ
deriving DecidableEq, Repr

/-- Modelled from the spec: one accepted point of a ball track. -/
structure TrackPoint where
  frame_number : Nat
  t : ℚ
  x : ℚ
  y : ℚ
deriving DecidableEq, Repr

/-- Modelled from the spec: a Track is an ordered sequence of accepted ball
positions, section 3. -/
abbrev Track : Type := List TrackPoint

/-- Squared Euclidean distance between a track point and a detection. -/
def distSq (p : TrackPoint) (d : Detection) : ℚ :=
  (d.x - p.x) * (d.x - p.x) + (d.y - p.y) * (d.y - p.y)

/-! ## Metrics Aggregator (modelled from spec section 4.5) -/

/-- Modelled from the spec: the MetricsSummary aggregate record, sections 3
and 4.5 and the `metrics_summary` table of `database_schema.md`.  The speed
field is `Option`-valued: `none` is the defined sentinel for the
zero-detection case. -/
structure MetricsSummary where
  total_frames : Nat
  frames_with_balls : Nat
  total_ball_detections : Nat
  average_detections_per_frame : ℚ
  detection_rate : ℚ
  total_strokes : Nat
  forehand_count : Nat
  backhand_count : Nat
  serve_count : Nat
  volley_count : Nat
  ball_bounce_count : Nat
  average_ball_speed : Option ℚ
deriving DecidableEq, Repr

/-- Modelled from the spec: the number of frames with at least one ball
detection (`frames_with_balls`). -/
def framesWithBalls (obs : List FrameObservation) : Nat :=
  (obs.filter (fun o => !o.detections.isEmpty)).length

/-- Modelled from the spec: per-step ball speeds of a track, derived from
consecutive accepted positions and elapsed time; undefined (absent) for
the first point of a track.  The speed of a step is represented by the
squared displacement over the squared elapsed time, so the definition
stays in `ℚ`; steps with zero elapsed time are skipped. -/
def stepSpeeds : List TrackPoint → List ℚ
  | p :: q :: rest =>
      (if p.t = q.t then [] else
        [distSq p ⟨q.x, q.y, 1⟩ / ((q.t - p.t) * (q.t - p.t))]) ++ stepSpeeds (q :: rest)
  | _ => []

/-- Modelled from the spec: ball bounce count by local-minimum detection in
the track vertical coordinate, section 4.5. -/
def bounceCount : List ℚ → Nat
  | a :: b :: c :: rest =>
      (if b < a ∧ b < c then 1 else 0) + bounceCount (b :: c :: rest)
  | _ => 0

/-- Modelled from the spec: count of stroke events of one type. -/
def strokeCount (events : List StrokeEvent) (ty : StrokeType) : Nat :=
  (events.filter (fun e => e.stroke_type = ty)).length

/-- Modelled from the spec: the Metrics Aggregator, section 4.5 — a pure
total function from the FrameObservations, Tracks and StrokeEvents of one
run to one MetricsSummary.  Division-by-zero cases are guarded and yield
the defined sentinel (`0` for rates, `none` for the average speed), never
an exception. -/
def metricsAggregator (obs : List FrameObservation) (tracks : List Track)
    (events : List StrokeEvent) : MetricsSummary :=
  let total := obs.length
  let withBalls := framesWithBalls obs
  let totalDet := (obs.map (fun o => o.detections.length)).sum
  let speeds := (tracks.map stepSpeeds).flatten
  { total_frames := total
    frames_with_balls := withBalls
    total_ball_detections := totalDet
    average_detections_per_frame :=
      if total = 0 then 0 else (totalDet : ℚ) / (total : ℚ)
    detection_rate :=
      if total = 0 then 0 else (withBalls : ℚ) / (total : ℚ)
    total_strokes := (events.filter (fun e => e.stroke_type ≠ StrokeType.unknown)).length
    forehand_count := strokeCount events StrokeType.forehand
    backhand_count := strokeCount events StrokeType.backhand
    serve_count := strokeCount events StrokeType.serve
    volley_count := strokeCount events StrokeType.volley
    ball_bounce_count := (tracks.map (fun tr => bounceCount (tr.map TrackPoint.y))).sum
    average_ball_speed :=
      if speeds.isEmpty then none else some (speeds.sum / (speeds.length : ℚ)) }

/-! ## Trajectory Tracker (modelled from spec section 4.3) -/

/-- Modelled from the spec: tracker calibration — the gap tolerance
`max_gap`, the acceptance threshold for the gap/confidence-penalized
score, and the two penalty weights.  Distances enter the score squared so
the whole computation stays in `ℚ`. -/
structure TrackerConfig where
  max_gap : Nat
  threshold : ℚ
  gap_penalty : ℚ
  conf_penalty : ℚ
deriving DecidableEq, Repr

/-- Modelled from the spec: one frame of the ball-detection stream consumed
by the tracker. -/
structure ObsFrame where
  frame_number : Nat
  t : ℚ
  detections : List Detection
deriving DecidableEq, Repr

/-- Modelled from the spec: the single active track — its last accepted
point, the earlier accepted points (most recent first) and the current
count of consecutive misses. -/
structure ActiveTrack where
  last : TrackPoint
  earlier : List TrackPoint
  gap : Nat
deriving DecidableEq, Repr

/-- The chronological point sequence of an active track. -/
def ActiveTrack.toTrack (tr : ActiveTrack) : Track :=
  (tr.last :: tr.earlier).reverse

/-- Modelled from the spec: the candidate score — squared Euclidean
distance to the track last known position, penalized by the gap factor
(frames since last update) and by low confidence, section 4.3 step 2. -/
def score (cfg : TrackerConfig) (last : TrackPoint) (gap : Nat) (d : Detection) : ℚ :=
  distSq last d + cfg.gap_penalty * (gap : ℚ) + cfg.conf_penalty * (1 - d.confidence)

/-- Modelled from the spec: candidate selection, section 4.3 steps 2 and 4 —
the candidate minimizing the penalized score, accepted only if its score is
below the calibrated threshold and it is the unique minimizer (an ambiguous
frame with no clear best match is excluded from the active track). -/
def bestCandidate (cfg : TrackerConfig) (last : TrackPoint) (gap : Nat)
    (ds : List Detection) : Option Detection :=
  match ds with
  | [] => none
  | d :: rest =>
      let best := rest.foldl
        (fun b c => if score cfg last gap c < score cfg last gap b then c else b) d
      if score cfg last gap best ≤ cfg.threshold ∧
          (ds.filter (fun c => score cfg last gap c = score cfg last gap best)).length = 1 then
        some best
      else none

/-- Modelled from the spec: when no track is active a new track starts at
the highest-confidence detection of the frame, section 4.3 steps 1 and 5. -/
def pickStart : List Detection → Option Detection
  | [] => none
  | d :: rest => some (rest.foldl (fun b c => if b.confidence < c.confidence then c else b) d)

/-- Tracker state: at most one active track plus the finished tracks in
order of termination. -/
structure TrackerState where
  active : Option ActiveTrack
  finished : List Track
deriving DecidableEq, Repr

/-- The track point recorded for an accepted detection. -/
def mkPoint (fr : ObsFrame) (d : Detection) : TrackPoint :=
  ⟨fr.frame_number, fr.t, d.x, d.y⟩

/-- Modelled from the spec: one tracker step, section 4.3 — accept the best
candidate into the active track, or count a miss; up to `max_gap`
consecutive misses are tolerated before the track is terminated; with no
active track, a frame with detections starts a new one. -/
def trackerStep (cfg : TrackerConfig) (st : TrackerState) (fr : ObsFrame) : TrackerState :=
  match st.active with
  | some tr =>
      match bestCandidate cfg tr.last tr.gap fr.detections with
      | some d =>
          { active := some ⟨mkPoint fr d, tr.last :: tr.earlier, 0⟩,
            finished := st.finished }
      | none =>
          if tr.gap + 1 ≤ cfg.max_gap then
            { active := some { tr with gap := tr.gap + 1 }, finished := st.finished }
          else
            { active := none, finished := st.finished ++ [tr.toTrack] }
  | none =>
      match pickStart fr.detections with
      | some d =>
          { active := some ⟨mkPoint fr d, [], 0⟩, finished := st.finished }
      | none => st

/-- Modelled from the spec: the Trajectory Tracker, section 4.3 — folds the
tracker step over the ordered detection stream and terminates the still
active track at run end. -/
def trajectoryTracker (cfg : TrackerConfig) (frames : List ObsFrame) : List Track :=
  let s := frames.foldl (trackerStep cfg) ⟨none, []⟩
  s.finished ++ (match s.active with
    | some tr => [tr.toTrack]
    | none => [])

/-- The ball-detection stream of a run, read off its FrameObservations. -/
def toObsFrame (o : FrameObservation) : ObsFrame :=
  ⟨o.frame_number, o.timestamp, o.detections⟩

/-- Modelled from the spec: the aggregation stage of one run — the tracker
derives the tracks from the run FrameObservations and the aggregator
reduces everything to one MetricsSummary, sections 2 and 4.5. -/
def analyzeRun (cfg : TrackerConfig) (obs : List FrameObservation)
    (events : List StrokeEvent) : MetricsSummary :=
  metricsAggregator obs (trajectoryTracker cfg (obs.map toObsFrame)) events

/-! ## Analysis Run Controller (modelled from spec sections 3 and 4.6 and
the `processing_jobs` table of `database_schema.md`) -/

/-- Modelled from the spec: the run status enum of section 4.6 and of the
`processing_jobs` table (`queued, running, completed, failed`). -/
inductive RunStatus where
  | queued | running | completed | failed
deriving DecidableEq, Repr

/-- Modelled from the spec: `completed` and `failed` are the terminal
states. -/
def RunStatus.isTerminal : RunStatus → Bool
  | .completed => true
  | .failed => true
  | _ => false

/-- Modelled from the spec: an AnalysisRun record — id, video reference and
status, section 3. -/
structure AnalysisRun where
  run_id : Nat
  video_id : String
  status : RunStatus
deriving DecidableEq, Repr

/-- Controller-owned state: the AnalysisRun rows plus the next fresh run
id. -/
structure ControllerState where
  runs : List AnalysisRun
  nextId : Nat
deriving DecidableEq, Repr

/-- Modelled from the spec: the start-request error of section 4.6. -/
inductive StartError where
  | RunAlreadyInProgress
deriving DecidableEq, Repr

/-- Whether a non-terminal run already exists for the video. -/
def hasNonTerminalRun (s : ControllerState) (v : String) : Bool :=
  s.runs.any (fun r => r.video_id = v ∧ !r.status.isTerminal)

/-- The non-terminal runs of a video in a state. -/
def nonTerminalRuns (s : ControllerState) (v : String) : List AnalysisRun :=
  s.runs.filter (fun r => r.video_id = v ∧ !r.status.isTerminal)

/-- Modelled from the spec: starting a run, section 4.6 — if a non-terminal
run already exists for the video the request is refused with
`RunAlreadyInProgress` and the state is returned unchanged; otherwise a
fresh run is created in the `queued` state. -/
def startRun (s : ControllerState) (v : String) :
    ControllerState × Except StartError Nat :=
  if hasNonTerminalRun s v then
    (s, Except.error StartError.RunAlreadyInProgress)
  else
    ({ runs := ⟨s.nextId, v, RunStatus.queued⟩ :: s.runs, nextId := s.nextId + 1 },
     Except.ok s.nextId)

/-- Modelled from the spec: the operations of the Analysis Run Controller —
start a run on a video, move a queued run to `running`, and close a running
run as `completed` or `failed`, section 4.6. -/
inductive ControllerOp where
  | start (v : String)
  | beginRun (id : Nat)
  | complete (id : Nat)
  | fail (id : Nat)
deriving DecidableEq, Repr

/-- Guarded status update of one run: the new status is applied only to the
run with the given id and only from the expected source status. -/
def setStatus (s : ControllerState) (id : Nat) (src tgt : RunStatus) : ControllerState :=
  { s with runs := s.runs.map (fun r =>
      if r.run_id = id ∧ r.status = src then { r with status := tgt } else r) }

/-- Modelled from the spec: the controller state machine, section 4.6 —
`queued → running → (completed | failed)`; every transition is owned by
the controller and guarded by the source state, so terminal runs are never
moved. -/
def applyOp (s : ControllerState) : ControllerOp → ControllerState
  | .start v => (startRun s v).1
  | .beginRun id => setStatus s id RunStatus.queued RunStatus.running
  | .complete id => setStatus s id RunStatus.running RunStatus.completed
  | .fail id => setStatus s id RunStatus.running RunStatus.failed

/-- The legal status edges of the run lifecycle. -/
inductive StatusEdge : RunStatus → RunStatus → Prop
  | qr : StatusEdge RunStatus.queued RunStatus.running
  | rc : StatusEdge RunStatus.running RunStatus.completed
  | rf : StatusEdge RunStatus.running RunStatus.failed

/-! ## Persistence sink: MetricsSummary upsert (modelled from spec
sections 3 and 4.6) -/

/-- Modelled from the spec: the MetricsSummary store keyed by video id
(`video_id TEXT UNIQUE` in `database_schema.md`). -/
def SummaryStore : Type := List (String × MetricsSummary)
deriving instance DecidableEq, Repr for SummaryStore

/-- Modelled from the spec: the MetricsSummary upsert by video id — a
recomputed summary replaces the prior one in place, otherwise it is
inserted, sections 3 and 4.6. -/
def upsertSummary (db : SummaryStore) (v : String) (m : MetricsSummary) : SummaryStore :=
  if db.any (fun p => p.1 = v) then
    db.map (fun p => if p.1 = v then (v, m) else p)
  else
    (v, m) :: db

/-- Lookup of a video summary in the store. -/
def findSummary (db : SummaryStore) (v : String) : Option MetricsSummary :=
  (db.find? (fun p => p.1 = v)).map Prod.snd

/-- Modelled from the spec: the FrameObservations feeding one run
aggregation are exactly those scoped to that run id — observations of
superseded runs are not mixed in, sections 3, 4.6 and 9. -/
def obsForRun (allObs : List FrameObservation) (runId : Nat) : List FrameObservation :=
  allObs.filter (fun o => o.run_id = runId)

/-! ## Detector fault handling (modelled from spec section 4.2) -/

/-- Modelled from the spec: the per-frame outcome of one detector — a
(possibly empty) detection list, or a fault, section 4.2. -/
inductive DetectorOutcome where
  | ok (ds : List Detection)
  | fault
deriving DecidableEq, Repr

/-- Whether a per-frame outcome is a fault. -/
def DetectorOutcome.isFault : DetectorOutcome → Bool
  | .fault => true
  | .ok _ => false

/-- Recorded result of one detector run: the `detected` flag of each
processed frame in order, and whether the run escalated to a fatal error. -/
structure DetectorRunResult where
  detectedFlags : List Bool
  fatal : Bool
deriving DecidableEq, Repr

/-- Modelled from the spec: per-frame fault absorption with escalation,
section 4.2 — a faulting frame is recorded as `detected = false` and
processing continues; the third consecutive fault of the same detector
escalates to a fatal run error.  The counter `c` holds the current number
of consecutive faults. -/
def detectorRunAux (c : Nat) : List DetectorOutcome → DetectorRunResult
  | [] => { detectedFlags := [], fatal := false }
  | DetectorOutcome.ok ds :: rest =>
      let r := detectorRunAux 0 rest
      { detectedFlags := (!ds.isEmpty) :: r.detectedFlags, fatal := r.fatal }
  | DetectorOutcome.fault :: rest =>
      if 3 ≤ c + 1 then { detectedFlags := [false], fatal := true }
      else
        let r := detectorRunAux (c + 1) rest
        { detectedFlags := false :: r.detectedFlags, fatal := r.fatal }

/-- Modelled from the spec: one detector processed over the frames of a
run, section 4.2. -/
def detectorRun (outcomes : List DetectorOutcome) : DetectorRunResult :=
  detectorRunAux 0 outcomes

/-- Three consecutive `true` entries somewhere in a Boolean trace. -/
def threeConsec : List Bool → Bool
  | true :: true :: true :: _ => true
  | _ :: rest => threeConsec rest
  | [] => false

/-- Count of leading `true` entries of a Boolean trace. -/
def leadingTrues : List Bool → Nat
  | true :: rest => leadingTrues rest + 1
  | _ => 0

/-! ## Synthetic gap-bridging stream (spec section 8, gap bridging) -/

/-- The synthetic detection stream of the gap-bridging property: one ball
detection per frame moving at one unit of x per frame for frames 0 to 10,
no detections for frames 11 to 13, detections again on the extrapolated
trajectory for frames 14 to 20. -/
def synthStream : List ObsFrame :=
  (List.range 21).map (fun i =>
    ⟨i, (i : ℚ), if 11 ≤ i ∧ i ≤ 13 then [] else [⟨(i : ℚ), 0, 1⟩]⟩)

/-- Tracker calibration used for the synthetic stream: gap tolerance 3,
squared-distance score threshold 20, unit gap and confidence penalties. -/
def testCfg : TrackerConfig := ⟨3, 20, 1, 1⟩

end TennisCoach

namespace TennisCoach

/-! ## Theorems -/

/-- C10: for every array of videos returned by the backend,
`videoApi.getVideos` returns a `VideoListResponse` whose `total` field
equals the length of its `videos` array. -/
theorem getVideos_total_eq_length (data : List VideoMetadata) :
    (getVideos data).total = (getVideos data).videos.length := rfl

/-- C9: in `VideoUpload.handleFileSelect`, a file whose MIME type is not
allowed or whose size exceeds 100 MB sets an error message and issues no
upload request; and `onUploadSuccess` is invoked only when the upload was
issued and resolved successfully. -/
theorem handleFileSelect_validation :
    (∀ f r, (f.mimeType ∉ allowedTypes ∨ maxSize < f.size) →
        (handleFileSelect f r).errorMsg.isSome = true ∧
        (handleFileSelect f r).uploadCalled = false) ∧
    (∀ f r, (handleFileSelect f r).successCalled = true →
        (∃ v, r = Except.ok v) ∧ (handleFileSelect f r).uploadCalled = true) := by
  constructor
  · intro f r h
    rcases h with h | h
    · simp [handleFileSelect, h]
    · by_cases ht : f.mimeType ∈ allowedTypes
      · simp [handleFileSelect, ht, h]
      · simp [handleFileSelect, ht]
  · intro f r h
    by_cases ht : f.mimeType ∈ allowedTypes
    · by_cases hs : maxSize < f.size
      · simp [handleFileSelect, ht, hs] at h
      · cases r with
        | ok v => exact ⟨⟨v, rfl⟩, by simp [handleFileSelect, ht, hs]⟩
        | error e => simp [handleFileSelect, ht, hs] at h
    · simp [handleFileSelect, ht] at h

/-- Witness for C9: a `text/plain` file of 5 bytes is rejected with an
error and no upload call. -/
theorem handleFileSelect_validation_witness :
    (handleFileSelect ⟨"text/plain", 5⟩ (Except.error "boom")).errorMsg.isSome = true ∧
    (handleFileSelect ⟨"text/plain", 5⟩ (Except.error "boom")).uploadCalled = false :=
  handleFileSelect_validation.1 ⟨"text/plain", 5⟩ (Except.error "boom")
    (Or.inl (by decide))

/-- C1: for every completed aggregation, the `detection_rate` field of the
MetricsSummary equals `frames_with_balls` divided by `total_frames`
(with the rational convention `0 / 0 = 0` realising the zero-frame
sentinel). -/
theorem detection_rate_eq_ratio (obs : List FrameObservation) (tracks : List Track)
    (events : List StrokeEvent) :
    (metricsAggregator obs tracks events).detection_rate
      = ((metricsAggregator obs tracks events).frames_with_balls : ℚ)
          / ((metricsAggregator obs tracks events).total_frames : ℚ) := by
  by_cases h : obs.length = 0
  · have hnil : obs = [] := List.length_eq_zero.mp h
    subst hnil
    simp [metricsAggregator, framesWithBalls]
  · simp [metricsAggregator, h]

/-- C4: the Metrics Aggregator is a pure, deterministic function — two
calls on identical FrameObservations, Tracks and StrokeEvents return
identical MetricsSummary values. -/
theorem metricsAggregator_deterministic (o₁ o₂ : List FrameObservation)
    (t₁ t₂ : List Track) (e₁ e₂ : List StrokeEvent)
    (ho : o₁ = o₂) (ht : t₁ = t₂) (he : e₁ = e₂) :
    metricsAggregator o₁ t₁ e₁ = metricsAggregator o₂ t₂ e₂ := by
  subst ho; subst ht; subst he; rfl

/-- Witness for C4: two aggregator calls on one concrete single-frame input
agree. -/
theorem metricsAggregator_deterministic_witness :
    metricsAggregator [⟨1, 0, 0, [⟨3, 4, 1⟩], true⟩] [] []
      = metricsAggregator [⟨1, 0, 0, [⟨3, 4, 1⟩], true⟩] [] [] :=
  metricsAggregator_deterministic _ _ _ _ _ _ rfl rfl rfl

/-- On a frame with no detections the tracker step leaves the initial
state untouched. -/
theorem trackerStep_initial_no_detections (cfg : TrackerConfig) (fr : ObsFrame)
    (h : fr.detections = []) :
    trackerStep cfg ⟨none, []⟩ fr = ⟨none, []⟩ := by
  simp [trackerStep, pickStart, h]

/-- The tracker yields no tracks on a stream with no detections at all. -/
theorem trajectoryTracker_no_detections (cfg : TrackerConfig) (frames : List ObsFrame)
    (h : ∀ f ∈ frames, f.detections = []) :
    trajectoryTracker cfg frames = [] := by
  have hfold : frames.foldl (trackerStep cfg) ⟨none, []⟩ = ⟨none, []⟩ := by
    induction frames with
    | nil => rfl
    | cons f fs ih =>
        rw [List.foldl_cons,
          trackerStep_initial_no_detections cfg f (h f (List.mem_cons_self f fs))]
        exact ih (fun g hg => h g (List.mem_cons_of_mem f hg))
  simp [trajectoryTracker, hfold]

/-- C5: a run with zero ball detections across all frames aggregates
without error to a MetricsSummary with `detection_rate = 0` and the
`none` sentinel for `average_ball_speed`; every division in the
aggregator is guarded, so the function is total on all inputs. -/
theorem zero_detection_safety (cfg : TrackerConfig) (obs : List FrameObservation)
    (events : List StrokeEvent) (h : ∀ o ∈ obs, o.detections = []) :
    (analyzeRun cfg obs events).detection_rate = 0 ∧
    (analyzeRun cfg obs events).average_ball_speed = none := by
  have htr : trajectoryTracker cfg (obs.map toObsFrame) = [] := by
    refine trajectoryTracker_no_detections cfg _ ?_
    intro f hf
    rcases List.mem_map.mp hf with ⟨o, ho, rfl⟩
    simp [toObsFrame, h o ho]
  have hfwb : framesWithBalls obs = 0 := by
    simp only [framesWithBalls, List.length_eq_zero, List.filter_eq_nil_iff]
    intro o ho
    simp [h o ho]
  unfold analyzeRun
  rw [htr]
  refine ⟨?_, ?_⟩
  · by_cases hl : obs.length = 0 <;> simp [metricsAggregator, hl, hfwb]
  · simp [metricsAggregator]

/-- Witness for C5: a concrete two-frame run with no detections yields the
zero rate and the `none` speed sentinel. -/
theorem zero_detection_safety_witness :
    (analyzeRun testCfg [⟨1, 0, 0, [], false⟩, ⟨1, 1, 1, [], false⟩] []).detection_rate = 0 ∧
    (analyzeRun testCfg [⟨1, 0, 0, [], false⟩, ⟨1, 1, 1, [], false⟩] []).average_ball_speed = none :=
  zero_detection_safety testCfg _ [] (by decide)

/-- C2: a request to start an analysis on a video that already has a
non-terminal run is refused with `RunAlreadyInProgress`, the controller
state is unchanged, and in particular no second non-terminal AnalysisRun
record is created for that video. -/
theorem startRun_refuses_second_run (s : ControllerState) (v : String)
    (h : hasNonTerminalRun s v = true) :
    (startRun s v).2 = Except.error StartError.RunAlreadyInProgress ∧
    (startRun s v).1 = s ∧
    nonTerminalRuns (startRun s v).1 v = nonTerminalRuns s v := by
  simp [startRun, h]

/-- Witness for C2: starting a second run on a video with a `running` run
is refused and the run table is untouched. -/
theorem startRun_refuses_second_run_witness :
    (startRun ⟨[⟨0, "match.mp4", RunStatus.running⟩], 1⟩ "match.mp4").2
        = Except.error StartError.RunAlreadyInProgress ∧
    (startRun ⟨[⟨0, "match.mp4", RunStatus.running⟩], 1⟩ "match.mp4").1
        = ⟨[⟨0, "match.mp4", RunStatus.running⟩], 1⟩ ∧
    nonTerminalRuns (startRun ⟨[⟨0, "match.mp4", RunStatus.running⟩], 1⟩ "match.mp4").1 "match.mp4"
        = nonTerminalRuns ⟨[⟨0, "match.mp4", RunStatus.running⟩], 1⟩ "match.mp4" :=
  startRun_refuses_second_run ⟨[⟨0, "match.mp4", RunStatus.running⟩], 1⟩ "match.mp4" (by decide)

/-- A terminal run status is neither `queued` nor `running`. -/
theorem terminal_not_intermediate (st : RunStatus) (h : st.isTerminal = true) :
    st ≠ RunStatus.queued ∧ st ≠ RunStatus.running := by
  cases st <;> simp_all [RunStatus.isTerminal]

/-- C3: every AnalysisRun is created in the `queued` state; every status
change made by a controller operation follows an edge of
`queued → running → (completed | failed)`; and terminal runs are left
untouched by every operation. -/
theorem run_lifecycle :
    (∀ s v, hasNonTerminalRun s v = false →
        ∃ r, (startRun s v).1.runs = r :: s.runs ∧ r.status = RunStatus.queued) ∧
    (∀ s op r₂, r₂ ∈ (applyOp s op).runs →
        r₂ ∈ s.runs ∨ r₂.status = RunStatus.queued ∨
        ∃ r₁ ∈ s.runs, r₁.run_id = r₂.run_id ∧ StatusEdge r₁.status r₂.status) ∧
    (∀ s op r, r ∈ s.runs → r.status.isTerminal = true → r ∈ (applyOp s op).runs) := by
  refine ⟨?_, ?_, ?_⟩
  · intro s v h
    exact ⟨⟨s.nextId, v, RunStatus.queued⟩, by simp [startRun, h], rfl⟩
  · intro s op r₂ h
    cases op with
    | start v =>
        by_cases hv : hasNonTerminalRun s v = true
        · simp only [applyOp, startRun, if_pos hv] at h
          exact Or.inl h
        · simp only [applyOp, startRun, if_neg hv] at h
          rcases List.mem_cons.mp h with hnew | hold
          · exact Or.inr (Or.inl (by rw [hnew]))
          · exact Or.inl hold
    | beginRun id =>
        simp only [applyOp, setStatus] at h
        rcases List.mem_map.mp h with ⟨r, hr, hfr⟩
        by_cases hc : r.run_id = id ∧ r.status = RunStatus.queued
        · rw [if_pos hc] at hfr
          refine Or.inr (Or.inr ⟨r, hr, ?_, ?_⟩)
          · rw [← hfr]
          · rw [← hfr, hc.2]; exact StatusEdge.qr
        · rw [if_neg hc] at hfr
          exact Or.inl (hfr ▸ hr)
    | complete id =>
        simp only [applyOp, setStatus] at h
        rcases List.mem_map.mp h with ⟨r, hr, hfr⟩
        by_cases hc : r.run_id = id ∧ r.status = RunStatus.running
        · rw [if_pos hc] at hfr
          refine Or.inr (Or.inr ⟨r, hr, ?_, ?_⟩)
          · rw [← hfr]
          · rw [← hfr, hc.2]; exact StatusEdge.rc
        · rw [if_neg hc] at hfr
          exact Or.inl (hfr ▸ hr)
    | fail id =>
        simp only [applyOp, setStatus] at h
        rcases List.mem_map.mp h with ⟨r, hr, hfr⟩
        by_cases hc : r.run_id = id ∧ r.status = RunStatus.running
        · rw [if_pos hc] at hfr
          refine Or.inr (Or.inr ⟨r, hr, ?_, ?_⟩)
          · rw [← hfr]
          · rw [← hfr, hc.2]; exact StatusEdge.rf
        · rw [if_neg hc] at hfr
          exact Or.inl (hfr ▸ hr)
  · intro s op r hr hterm
    have hne := terminal_not_intermediate r.status hterm
    cases op with
    | start v =>
        by_cases hv : hasNonTerminalRun s v = true
        · simpa [applyOp, startRun, if_pos hv] using hr
        · simp only [applyOp, startRun, if_neg hv]
          exact List.mem_cons_of_mem _ hr
    | beginRun id =>
        simp only [applyOp, setStatus]
        have hfix : (if r.run_id = id ∧ r.status = RunStatus.queued then
            { r with status := RunStatus.running } else r) = r :=
          if_neg (fun hc => hne.1 hc.2)
        exact hfix ▸ List.mem_map_of_mem _ hr
    | complete id =>
        simp only [applyOp, setStatus]
        have hfix : (if r.run_id = id ∧ r.status = RunStatus.running then
            { r with status := RunStatus.completed } else r) = r :=
          if_neg (fun hc => hne.2 hc.2)
        exact hfix ▸ List.mem_map_of_mem _ hr
    | fail id =>
        simp only [applyOp, setStatus]
        have hfix : (if r.run_id = id ∧ r.status = RunStatus.running then
            { r with status := RunStatus.failed } else r) = r :=
          if_neg (fun hc => hne.2 hc.2)
        exact hfix ▸ List.mem_map_of_mem _ hr

/-- Witness for C3: a `completed` run is untouched by a `fail` operation. -/
theorem run_lifecycle_witness :
    (⟨0, "match.mp4", RunStatus.completed⟩ : AnalysisRun) ∈
      (applyOp ⟨[⟨0, "match.mp4", RunStatus.completed⟩], 1⟩ (ControllerOp.fail 0)).runs :=
  run_lifecycle.2.2 ⟨[⟨0, "match.mp4", RunStatus.completed⟩], 1⟩ (ControllerOp.fail 0)
    ⟨0, "match.mp4", RunStatus.completed⟩ (by decide) (by decide)

/-- In the replace branch of the upsert, the first entry keyed by the
video id has been replaced by the new summary. -/
theorem find?_replaced (db : SummaryStore) (v : String) (m : MetricsSummary)
    (h : db.any (fun p => p.1 = v) = true) :
    (db.map (fun p => if p.1 = v then (v, m) else p)).find? (fun p => p.1 = v)
      = some (v, m) := by
  induction db with
  | nil => simp at h
  | cons p rest ih =>
      by_cases hp : p.1 = v
      · simp [List.find?_cons, hp]
      · have hrest : rest.any (fun q => q.1 = v) = true := by
          simpa [List.any_cons, hp] using h
        simp only [List.map_cons, if_neg hp, List.find?_cons]
        have : (decide (p.1 = v)) = false := by simp [hp]
        rw [this]
        exact ih hrest

/-- The replace branch of the upsert leaves the key list of the store
unchanged. -/
theorem upsert_replace_keys (db : SummaryStore) (v : String) (m : MetricsSummary) :
    (db.map (fun p => if p.1 = v then (v, m) else p)).map Prod.fst
      = db.map Prod.fst := by
  rw [List.map_map]
  refine List.map_congr_left ?_
  intro p _
  by_cases hp : p.1 = v
  · simp [hp]
  · simp [hp]

/-- C6: the persistence sink keeps at most one MetricsSummary per video —
the upsert preserves distinctness of the video keys and a re-run replaces
the prior summary of the video rather than adding a second one — and the
observations feeding one run aggregation all carry that run id, so
FrameObservations of superseded runs are not mixed in. -/
theorem summary_upsert_invariant :
    (∀ db v m, (db.map Prod.fst).Nodup → ((upsertSummary db v m).map Prod.fst).Nodup) ∧
    (∀ db v m, findSummary (upsertSummary db v m) v = some m) ∧
    (∀ allObs runId, ∀ o ∈ obsForRun allObs runId, o.run_id = runId) := by
  refine ⟨?_, ?_, ?_⟩
  · intro db v m h
    unfold upsertSummary
    by_cases ha : db.any (fun p => p.1 = v) = true
    · rw [if_pos ha, upsert_replace_keys]
      exact h
    · rw [if_neg ha]
      simp only [List.map_cons]
      refine List.nodup_cons.mpr ⟨?_, h⟩
      intro hmem
      rcases List.mem_map.mp hmem with ⟨p, hp, hpv⟩
      rw [List.any_eq_true] at ha
      exact ha ⟨p, hp, by simp [hpv]⟩
  · intro db v m
    unfold findSummary upsertSummary
    by_cases ha : db.any (fun p => p.1 = v) = true
    · rw [if_pos ha, find?_replaced db v m ha]
      rfl
    · rw [if_neg ha]
      simp [List.find?_cons]
  · intro allObs runId o ho
    have := (List.mem_filter.mp ho).2
    simpa using this

/-- Witness for C6: upserting into a concrete one-video store keeps the
keys distinct. -/
theorem summary_upsert_invariant_witness :
    ((upsertSummary [("a.mp4", metricsAggregator [] [] [])] "a.mp4"
        (metricsAggregator [] [] [])).map Prod.fst).Nodup :=
  summary_upsert_invariant.1 [("a.mp4", metricsAggregator [] [] [])] "a.mp4"
    (metricsAggregator [] [] []) (by decide)

/-- A trace with at least three leading `true` entries has three
consecutive `true` entries. -/
theorem threeConsec_of_leadingTrues (l : List Bool) (h : 3 ≤ leadingTrues l) :
    threeConsec l = true := by
  cases l with
  | nil => simp [leadingTrues] at h
  | cons a l1 =>
    cases a with
    | false => simp [leadingTrues] at h
    | true =>
      cases l1 with
      | nil => simp [leadingTrues] at h
      | cons b l2 =>
        cases b with
        | false => simp [leadingTrues] at h
        | true =>
          cases l2 with
          | nil => simp [leadingTrues] at h
          | cons c l3 =>
            cases c with
            | false => simp [leadingTrues] at h
            | true => rfl

/-- Peeling one `true` off the front of a trace: three consecutive `true`
entries exist iff the rest starts with two `true` entries or itself has
three consecutive ones. -/
theorem threeConsec_cons_true (m : List Bool) :
    threeConsec (true :: m) = true ↔ 2 ≤ leadingTrues m ∨ threeConsec m = true := by
  cases m with
  | nil => simp [threeConsec, leadingTrues]
  | cons b m2 =>
    cases b with
    | false => simp [threeConsec, leadingTrues]
    | true =>
      cases m2 with
      | nil => simp [threeConsec, leadingTrues]
      | cons c m3 =>
        cases c with
        | false => simp [threeConsec, leadingTrues]
        | true => simp [threeConsec, leadingTrues]

/-- Invariant of the fault counter: starting with `c ≤ 2` consecutive
faults already seen, the run escalates exactly when the remaining trace
opens with `3 - c` faults or contains three consecutive faults. -/
theorem detectorRunAux_fatal_iff (l : List DetectorOutcome) : ∀ c, c ≤ 2 →
    ((detectorRunAux c l).fatal = true ↔
      3 ≤ c + leadingTrues (l.map DetectorOutcome.isFault) ∨
      threeConsec (l.map DetectorOutcome.isFault) = true) := by
  induction l with
  | nil =>
      intro c hc
      simp only [detectorRunAux, List.map_nil, leadingTrues, threeConsec]
      constructor
      · intro h; exact absurd h (by simp)
      · rintro (h | h)
        · omega
        · exact absurd h (by simp)
  | cons o rest ih =>
      intro c hc
      cases o with
      | ok ds =>
          simp only [detectorRunAux, List.map_cons, DetectorOutcome.isFault]
          rw [ih 0 (by omega)]
          have hlt : leadingTrues (false :: rest.map DetectorOutcome.isFault) = 0 := rfl
          have htc : threeConsec (false :: rest.map DetectorOutcome.isFault)
              = threeConsec (rest.map DetectorOutcome.isFault) := rfl
          rw [hlt, htc]
          constructor
          · rintro (h | h)
            · exact Or.inr (threeConsec_of_leadingTrues _ (by omega))
            · exact Or.inr h
          · rintro (h | h)
            · omega
            · exact Or.inr h
      | fault =>
          simp only [detectorRunAux, List.map_cons, DetectorOutcome.isFault]
          by_cases h3 : 3 ≤ c + 1
          · rw [if_pos h3]
            simp only [leadingTrues]
            constructor
            · intro _; left; omega
            · intro _; trivial
          · rw [if_neg h3]
            rw [ih (c + 1) (by omega), threeConsec_cons_true]
            simp only [leadingTrues]
            constructor
            · rintro (h | h)
              · left; omega
              · right; right; exact h
            · rintro (h | h | h)
              · left; omega
              · left; omega
              · right; exact h

/-- When the run does not escalate, one `detected` flag is recorded per
input frame: processing continued to the end. -/
theorem detectorRunAux_length (l : List DetectorOutcome) : ∀ c,
    (detectorRunAux c l).fatal = false →
    (detectorRunAux c l).detectedFlags.length = l.length := by
  induction l with
  | nil => intro c _; rfl
  | cons o rest ih =>
      intro c hf
      cases o with
      | ok ds =>
          simp only [detectorRunAux] at hf ⊢
          simp [ih 0 hf]
      | fault =>
          by_cases h3 : 3 ≤ c + 1
          · simp only [detectorRunAux, if_pos h3] at hf
            exact absurd hf (by simp)
          · simp only [detectorRunAux, if_neg h3] at hf ⊢
            simp [ih (c + 1) hf]

/-- Every processed faulting frame is recorded with `detected = false`. -/
theorem detectorRunAux_fault_flag (l : List DetectorOutcome) : ∀ c i,
    l[i]? = some DetectorOutcome.fault →
    i < (detectorRunAux c l).detectedFlags.length →
    (detectorRunAux c l).detectedFlags[i]? = some false := by
  induction l with
  | nil => intro c i h _; simp at h
  | cons o rest ih =>
      intro c i h hlen
      cases o with
      | ok ds =>
          cases i with
          | zero => simp at h
          | succ j =>
              simp only [detectorRunAux] at hlen ⊢
              simp only [List.getElem?_cons_succ] at h ⊢
              simp only [List.length_cons, Nat.add_lt_add_iff_right] at hlen
              exact ih 0 j h hlen
      | fault =>
          by_cases h3 : 3 ≤ c + 1
          · simp only [detectorRunAux, if_pos h3] at hlen ⊢
            cases i with
            | zero => rfl
            | succ j => simp at hlen
          · simp only [detectorRunAux, if_neg h3] at hlen ⊢
            cases i with
            | zero => simp
            | succ j =>
                simp only [List.getElem?_cons_succ] at h ⊢
                simp only [List.length_cons, Nat.add_lt_add_iff_right] at hlen
                exact ih (c + 1) j h hlen

/-- C8: a detector fault on one frame is recorded as `detected = false`
for that frame while processing continues (one flag per frame whenever the
run does not escalate), and the run escalates to a fatal run error exactly
when the same detector faults on three consecutive frames. -/
theorem detector_fault_handling :
    (∀ outcomes, (detectorRun outcomes).fatal = true ↔
        threeConsec (outcomes.map DetectorOutcome.isFault) = true) ∧
    (∀ outcomes, (detectorRun outcomes).fatal = false →
        (detectorRun outcomes).detectedFlags.length = outcomes.length) ∧
    (∀ outcomes i, outcomes[i]? = some DetectorOutcome.fault →
        i < (detectorRun outcomes).detectedFlags.length →
        (detectorRun outcomes).detectedFlags[i]? = some false) := by
  refine ⟨?_, ?_, ?_⟩
  · intro outcomes
    rw [detectorRun, detectorRunAux_fatal_iff outcomes 0 (by omega)]
    constructor
    · rintro (h | h)
      · exact threeConsec_of_leadingTrues _ (by omega)
      · exact h
    · intro h
      exact Or.inr h
  · intro outcomes
    exact detectorRunAux_length outcomes 0
  · intro outcomes i
    exact detectorRunAux_fault_flag outcomes 0 i

/-- Witness for C8: a flaky frame followed by a healthy one does not
escalate, while three consecutive faults do. -/
theorem detector_fault_handling_witness :
    (detectorRun [DetectorOutcome.fault, DetectorOutcome.ok [⟨0, 0, 1⟩],
        DetectorOutcome.fault, DetectorOutcome.fault, DetectorOutcome.fault]).fatal = true :=
  (detector_fault_handling.1 _).mpr (by decide)

/-- C7: on the synthetic stream with detections in frames 0 to 10, a gap in
frames 11 to 13 and detections near the extrapolated position in frames 14
to 20, the tracker yields exactly one continuous track spanning frames 0
to 20; and in general a tracker step with no accepted candidate keeps the
active track alive (only counting the miss) as long as the consecutive
misses stay within `max_gap`. -/
theorem gap_bridging :
    ((trajectoryTracker testCfg synthStream).map
        (fun tr => tr.map TrackPoint.frame_number)
      = [[0, 1, 2, 3, 4, 5, 6, 7, 8, 9, 10, 14, 15, 16, 17, 18, 19, 20]]) ∧
    (∀ cfg st tr fr, st.active = some tr →
        bestCandidate cfg tr.last tr.gap fr.detections = none →
        tr.gap + 1 ≤ cfg.max_gap →
        (trackerStep cfg st fr).active = some { tr with gap := tr.gap + 1 } ∧
        (trackerStep cfg st fr).finished = st.finished) := by
  constructor
  · with_unfolding_all rfl
  · intro cfg st tr fr ha hb hg
    simp [trackerStep, ha, hb, hg]

/-- Witness for C7: a concrete one-point active track survives a frame
with no detections. -/
theorem gap_bridging_witness :
    (trackerStep testCfg ⟨some ⟨⟨0, 0, 0, 0⟩, [], 0⟩, []⟩ ⟨1, 1, []⟩).active
        = some ⟨⟨0, 0, 0, 0⟩, [], 1⟩ ∧
    (trackerStep testCfg ⟨some ⟨⟨0, 0, 0, 0⟩, [], 0⟩, []⟩ ⟨1, 1, []⟩).finished = [] :=
  gap_bridging.2 testCfg ⟨some ⟨⟨0, 0, 0, 0⟩, [], 0⟩, []⟩ ⟨⟨0, 0, 0, 0⟩, [], 0⟩ ⟨1, 1, []⟩
    rfl rfl (by decide)

end TennisCoach
